import Mathlib

/-!
Verification of the wind-turbine data-preparation pipeline.

The source is a single notebook whose core is `preProcess(fname, Nroll, keepID)`:
it reads rows `ID, ZONEID, TIMESTAMP, TARGETVAR, U10, V10, U100, V100`, fills
missing values with 0, optionally drops the ID column, pivots (`unstack`) the
(timestamp, zone) index into one row per timestamp with hierarchical column
keys `(field, zone)`, optionally appends rolling-mean columns, derives
`YEAR/DAYOFYEAR/HOUR` from the timestamp and drops the timestamp column.
Separate notebook cells flatten the hierarchical column keys to strings for
feather output.

The embedding below models rows as records with rational measurement values
(missing = `none`), tables as ordered lists of columns `(key, values)`, and
`preProcess` as a total function into `Except` (pandas exceptions become
`Except.error`).  The `print` diagnostics of a successful run are returned
as a list of strings.
-/

namespace WindPrep

/-- A parsed timestamp, as produced by `pd.read_csv(..., parse_dates=[2])` from
the `"YYYYMMDD h:mm"` format.  Parsing yields normalized calendar fields. -/
structure Timestamp where
  year : Nat
  month : Nat
  day : Nat
  hour : Nat
  minute : Nat
deriving DecidableEq, Repr

/-- Gregorian leap-year rule (used by `datetime.timetuple().tm_yday`). -/
def isLeap (y : Nat) : Bool := (y % 4 == 0 && y % 100 != 0) || y % 400 == 0

/-- Number of days in month `m` of year `y`. -/
def daysInMonth (y m : Nat) : Nat :=
  if m = 2 then (if isLeap y then 29 else 28)
  else if m = 4 ∨ m = 6 ∨ m = 9 ∨ m = 11 then 30 else 31

/-- 1-based day of the year, Python's `timetuple().tm_yday`. -/
def dayOfYear (y m d : Nat) : Nat :=
  (((List.range (m - 1)).map fun i => daysInMonth y (i + 1)).sum) + d

/-- Days elapsed since 0001-01-01 (proleptic Gregorian), the ordering key of a
parsed datetime. -/
def daysFromYearOne (y m d : Nat) : Nat :=
  365 * (y - 1) + (y - 1) / 4 - (y - 1) / 100 + (y - 1) / 400 + (dayOfYear y m d - 1)

/-- Absolute minute count of a timestamp; datetimes compare by this key. -/
def Timestamp.toMinutes (t : Timestamp) : Nat :=
  ((daysFromYearOne t.year t.month t.day) * 24 + t.hour) * 60 + t.minute

/-- Calendar validity of a parsed timestamp (what parsing guarantees). -/
def Timestamp.ValidTime (t : Timestamp) : Prop :=
  1 ≤ t.month ∧ t.month ≤ 12 ∧ 1 ≤ t.day ∧ t.day ≤ daysInMonth t.year t.month ∧
    t.hour < 24 ∧ t.minute < 60

instance (t : Timestamp) : Decidable t.ValidTime := by
  unfold Timestamp.ValidTime
  exact inferInstance

/-- Chronological order on timestamps. -/
def tsLe (a b : Timestamp) : Prop := a.toMinutes ≤ b.toMinutes

instance : DecidableRel tsLe := fun _ _ => inferInstanceAs (Decidable (_ ≤ _))

instance : IsTotal Timestamp tsLe := ⟨fun _ _ => Nat.le_total _ _⟩

instance : IsTrans Timestamp tsLe := ⟨fun _ _ _ h h' => Nat.le_trans h h'⟩

/-- One CSV record.  `none` models a missing/NaN field. -/
structure RawObservation where
  id : Option ℚ
  zoneId : Nat
  timestamp : Timestamp
  targetVar : Option ℚ
  u10 : Option ℚ
  v10 : Option ℚ
  u100 : Option ℚ
  v100 : Option ℚ
deriving DecidableEq, Repr

/-- A record after `df0.fillna(0, inplace=True)`: every data field is present. -/
structure FilledObservation where
  id : ℚ
  zoneId : Nat
  timestamp : Timestamp
  targetVar : ℚ
  u10 : ℚ
  v10 : ℚ
  u100 : ℚ
  v100 : ℚ
deriving DecidableEq, Repr

/-- `fillna(0)`: replace every missing data field by 0.  This happens before the
ID column is dropped or kept, so it applies to the ID field as well. -/
def fillObservation (r : RawObservation) : FilledObservation :=
  ⟨r.id.getD 0, r.zoneId, r.timestamp, r.targetVar.getD 0,
    r.u10.getD 0, r.v10.getD 0, r.u100.getD 0, r.v100.getD 0⟩

/-- Value of the named data column in a filled record. -/
def fieldValue (f : String) (r : FilledObservation) : ℚ :=
  if f = "ID" then r.id
  else if f = "TARGETVAR" then r.targetVar
  else if f = "U10" then r.u10
  else if f = "V10" then r.v10
  else if f = "U100" then r.u100
  else r.v100

/-- A hierarchical column key `(fieldName, zoneId)`; `none` models the empty
second level `('YEAR', '')` of the derived calendar columns. -/
abbrev ColKey := String × Option Nat

/-- One dataframe column: its key and its cell values (`none` = NaN). -/
abbrev Column := ColKey × List (Option ℚ)

/-- The wide (pivoted) table: an ordered list of columns. -/
abbrev WideTable := List Column

/-- Decimal digit character. -/
def digitChar (d : Nat) : Char := Char.ofNat (48 + d)

/-- Fuelled decimal rendering of a natural number (fuel `n + 1` suffices). -/
def natStrAux : Nat → Nat → List Char
  | 0, _ => []
  | fuel + 1, n =>
      if n < 10 then [digitChar n] else natStrAux fuel (n / 10) ++ [digitChar (n % 10)]

/-- Characters of Python's `str(n)` for a natural number. -/
def natStrChars (n : Nat) : List Char := natStrAux (n + 1) n

/-- Python's `str(n)` for a natural number. -/
def natStr (n : Nat) : String := ⟨natStrChars n⟩

/-- The `(TIMESTAMP, ZONEID)` hierarchical index of the raw frame. -/
def indexKeys (rows : List RawObservation) : List (Timestamp × Nat) :=
  rows.map fun r => (r.timestamp, r.zoneId)

/-- Distinct timestamps in ascending order: the row index after `unstack` /
`reset_index` (pandas sorts the remaining index level). -/
def rowTs (rows : List RawObservation) : List Timestamp :=
  List.insertionSort tsLe ((rows.map fun r => r.timestamp).dedup)

/-- Distinct zone ids in ascending order: the new inner column level created by
`unstack` (pandas sorts the unstacked level). -/
def zonesOf (rows : List RawObservation) : List Nat :=
  List.insertionSort (· ≤ ·) ((rows.map fun r => r.zoneId).dedup)

/-- The filled record for a given `(timestamp, zone)` cell, if present. -/
def lookupFilled (rows : List RawObservation) (u : Timestamp) (z : Nat) :
    Option FilledObservation :=
  (rows.map fillObservation).find? fun r => r.timestamp == u && r.zoneId == z

/-- Cell values of pivoted column `(f, z)`, one per output row; a timestamp
with no observation for zone `z` yields NaN (`none`), as `unstack` does. -/
def pivotVals (rows : List RawObservation) (f : String) (z : Nat) : List (Option ℚ) :=
  (rowTs rows).map fun u => (lookupFilled rows u z).map (fieldValue f)

/-- Data columns of `df0`, in CSV order, after the ID column is dropped or kept. -/
def fieldsOf (keepID : Bool) : List String :=
  if keepID then ["ID", "TARGETVAR", "U10", "V10", "U100", "V100"]
  else ["TARGETVAR", "U10", "V10", "U100", "V100"]

/-- The pivoted table `df1 = df0.unstack()`: outer level in original column
order, inner level the sorted zone ids. -/
def cols0 (rows : List RawObservation) (keepID : Bool) : WideTable :=
  (fieldsOf keepID).flatMap fun f =>
    (zonesOf rows).map fun z => ((f, some z), pivotVals rows f z)

/-- `nturbines` in the source. -/
def nturbines : Nat := 10

/-- `wind_measurements` in the source: the zone whitelist, hardcoded to 1..10. -/
def windMeasurements : List Nat := [1, 2, 3, 4, 5, 6, 7, 8, 9, 10]

/-- The four wind-measurement quantities. -/
def windFields : List String := ["U10", "V10", "U100", "V100"]

/-- The whitelist loop: for each `i` in 1..nturbines not in `wind_measurements`,
drop the four wind columns of zone `i` (currently vacuous, the whitelist holds
all ten zones). -/
def dropStep (cols : WideTable) : WideTable :=
  (List.range' 1 nturbines).foldl
    (fun acc i =>
      if i ∈ windMeasurements then acc
      else acc.filter fun c =>
        !(c.1 == (("U10", some i) : ColKey) || c.1 == (("V10", some i) : ColKey) ||
          c.1 == (("U100", some i) : ColKey) || c.1 == (("V100", some i) : ColKey)))
    cols

/-- `.rolling(N, min_periods=1).mean()` at row `i`: mean of the non-NaN values
among rows `max(0, i-N+1) .. i`; NaN when the window holds no observation. -/
def rollingMeanAt (N : Nat) (l : List (Option ℚ)) (i : Nat) : Option ℚ :=
  let w := ((l.take (i + 1)).drop (i + 1 - N)).filterMap id
  if w.length = 0 then none else some (w.sum / (w.length : ℚ))

/-- `.rolling(N, min_periods=1).mean()` over a whole column. -/
def rollingMean (N : Nat) (l : List (Option ℚ)) : List (Option ℚ) :=
  (List.range l.length).map (rollingMeanAt N l)

/-- Column selection `df2[(f, i)]`: a missing key raises `KeyError`. -/
def getColVals (cols : WideTable) (k : ColKey) : Except String (List (Option ℚ)) :=
  match cols.find? fun c => c.1 == k with
  | some c => .ok c.2
  | none => .error "KeyError"

/-- The rolling-mean column name `f + "_rm" + str(Nroll)`. -/
def rmName (f : String) (N : Nat) : String := f ++ "_rm" ++ natStr N

/-- Loop body for zone `i`: the four rolling-mean columns appended for that
zone, in source order U10, U100, V10, V100.  Each assignment reads a base wind
column of `df2` (the appended rolling columns never shadow a base key). -/
def rmColsForZone (N : Nat) (cols : WideTable) (i : Nat) : Except String WideTable := do
  let u10 ← getColVals cols ("U10", some i)
  let u100 ← getColVals cols ("U100", some i)
  let v10 ← getColVals cols ("V10", some i)
  let v100 ← getColVals cols ("V100", some i)
  pure [((rmName "U10" N, some i), rollingMean N u10),
        ((rmName "U100" N, some i), rollingMean N u100),
        ((rmName "V10" N, some i), rollingMean N v10),
        ((rmName "V100" N, some i), rollingMean N v100)]

/-- The rolling loop over the listed zones, appending columns in loop order. -/
def rollingBlockAux (N : Nat) (cols : WideTable) : List Nat → Except String WideTable
  | [] => .ok []
  | i :: rest => do
      let c ← rmColsForZone N cols i
      let r ← rollingBlockAux N cols rest
      pure (c ++ r)

/-- All rolling-mean columns: `for i in wind_measurements: ...`. -/
def rollingBlock (N : Nat) (cols : WideTable) : Except String WideTable :=
  rollingBlockAux N cols windMeasurements

/-- The diagnostic line printed when rolling means are computed. -/
def rollLogMsg (N : Nat) : String :=
  "Computing rolling means over " ++ natStr N ++ " measurements"

/-- The `if Nroll > 1` stage: append rolling-mean columns, or do nothing. -/
def rollStage (Nroll : Int) (cols : WideTable) :
    Except String (WideTable × List String) :=
  if 1 < Nroll then
    (rollingBlock Nroll.toNat cols).map fun rm => (cols ++ rm, [rollLogMsg Nroll.toNat])
  else .ok (cols, ["No rolling means computed"])

/-- The derived calendar columns, appended in source order; assigning a string
key on a frame with two column levels creates the keys `('YEAR', '')` etc. -/
def calendarCols (tss : List Timestamp) : WideTable :=
  [((("YEAR", none) : ColKey), tss.map fun u => some ((u.year : ℚ))),
   ((("DAYOFYEAR", none) : ColKey), tss.map fun u => some ((dayOfYear u.year u.month u.day : ℚ))),
   ((("HOUR", none) : ColKey), tss.map fun u => some ((u.hour : ℚ)))]

/-- The ID diagnostic line. -/
def idLog (keepID : Bool) : String :=
  if keepID then "ID column kept" else "ID column dropped"

/-- The whole `preProcess` transformation on parsed rows.  Timestamp first
differences are computed in the source only for diagnostics whose assertion and
prints are commented out, so they do not appear here.  `unstack` raises on a
duplicated `(timestamp, zone)` index entry; the final `drop('TIMESTAMP', axis=1,
level=0)` removes the timestamp column, here modelled by the filter (the
timestamp values live in `rowTs`, never in a rational-valued column). -/
def preProcess (rows : List RawObservation) (Nroll : Int) (keepID : Bool) :
    Except String (WideTable × List String) :=
  if (indexKeys rows).Nodup then
    match rollStage Nroll (dropStep (cols0 rows keepID)) with
    | .error e => .error e
    | .ok (cols2, rollLog) =>
        .ok ((cols2 ++ calendarCols (rowTs rows)).filter fun c => c.1.1 != "TIMESTAMP",
          [idLog keepID, "unstacked"] ++ rollLog)
  else .error "Index contains duplicate entries, cannot reshape"

/-- The table of a successful run (empty table on error); used to state closed
instances of the theorems below. -/
def theTable (rows : List RawObservation) (Nroll : Int) (keepID : Bool) : WideTable :=
  match preProcess rows Nroll keepID with
  | .ok (t, _) => t
  | .error _ => []

/-- The diagnostics of a successful run (empty on error). -/
def theLogs (rows : List RawObservation) (Nroll : Int) (keepID : Bool) : List String :=
  match preProcess rows Nroll keepID with
  | .ok (_, logs) => logs
  | .error _ => []

/-- The raw (filled) value of field `f`, zone `z` at timestamp `u`; on a
complete grid this is the unique observation's value. -/
def gridVal (rows : List RawObservation) (f : String) (z : Nat) (u : Timestamp) : ℚ :=
  ((lookupFilled rows u z).map (fieldValue f)).getD 0

/-- A structurally valid input: no duplicate `(timestamp, zone)` entries, the
zone ids are exactly 1..10, and every timestamp has an observation for every
zone. -/
def ValidGrid (rows : List RawObservation) : Prop :=
  (indexKeys rows).Nodup ∧ zonesOf rows = windMeasurements ∧
    ∀ u ∈ rowTs rows, ∀ z ∈ windMeasurements, (lookupFilled rows u z).isSome = true

instance (rows : List RawObservation) : Decidable (ValidGrid rows) := by
  unfold ValidGrid
  exact inferInstance

/-- The value of the rolling block when every listed zone has its wind columns:
four rolling-mean columns per zone, in loop order. -/
def rmBlock (rows : List RawObservation) (N : Nat) : WideTable :=
  windMeasurements.flatMap fun i =>
    [((rmName "U10" N, some i), rollingMean N (pivotVals rows "U10" i)),
     ((rmName "U100" N, some i), rollingMean N (pivotVals rows "U100" i)),
     ((rmName "V10" N, some i), rollingMean N (pivotVals rows "V10" i)),
     ((rmName "V100" N, some i), rollingMean N (pivotVals rows "V100" i))]

/-- A column label as the feather-rename cells see it: either a hierarchical
tuple `(field, zone)` or an already-flat string (a list of characters, which is
how Python indexes it). -/
inductive PdCol where
  | hier : String → Option Nat → PdCol
  | flat : List Char → PdCol
deriving DecidableEq, Repr

/-- `str(item[1])`: the zone digits, or the empty string for an empty level. -/
def pyStr : Option Nat → List Char
  | some z => natStrChars z
  | none => []

/-- `item[0] + '_' + str(item[1])`.  On a tuple this joins field and zone; on a
plain string it indexes the first two characters (the source would raise
`IndexError` on a string shorter than two characters). -/
def joinItem : PdCol → List Char
  | .hier f z => f.data ++ '_' :: pyStr z
  | .flat s => s.take 1 ++ '_' :: (s.drop 1).take 1

/-- `x if x[-1] != '_' else x[:-1]` (the source would raise `IndexError` on an
empty name, which cannot arise here). -/
def stripT (l : List Char) : List Char :=
  if l.getLast? = some '_' then l.dropLast else l

/-- The rename of the test/solution feather cells: join every column label,
then strip a trailing underscore from every name. -/
def flattenAll (cols : List PdCol) : List (List Char) :=
  (cols.map joinItem).map stripT

/-- The rename of the training feather cell: predictors (joined, then
stripped), targets (joined only), emitted targets first. -/
def flattenTraining (cols : List ColKey) : List (List Char) :=
  let predictors := (cols.filter fun k => k.1 != "TARGETVAR").map fun k => joinItem (.hier k.1 k.2)
  let predictors := predictors.map stripT
  let targets := (cols.filter fun k => k.1 == "TARGETVAR").map fun k => joinItem (.hier k.1 k.2)
  targets ++ predictors

/-- An hourly timestamp on 2012-01-01. -/
def ts0 (h : Nat) : Timestamp := ⟨2012, 1, 1, h, 0⟩

/-- A complete 10-zone grid over the given hours of 2012-01-01, with
distinguishable wind values. -/
def gridRows (hours : List Nat) : List RawObservation :=
  hours.flatMap fun h =>
    (List.range 10).map fun j =>
      ⟨some 1, j + 1, ts0 h, some 0, some ((h : ℚ) + (j : ℚ) + 1), some 0, some 0, some 0⟩

/-- One timestamp, ten zones, and the zone-1 record has a missing ID. -/
def idRows : List RawObservation :=
  ⟨none, 1, ts0 0, some 0, some 0, some 0, some 0, some 0⟩ ::
    (List.range 9).map fun j => ⟨some 1, j + 2, ts0 0, some 0, some 0, some 0, some 0, some 0⟩

/-- Two timestamps; the second is missing zone 10. -/
def missRows : List RawObservation :=
  ((List.range 10).map fun j => ⟨some 1, j + 1, ts0 0, some 0, some 0, some 0, some 0, some 0⟩) ++
    ((List.range 9).map fun j => ⟨some 1, j + 1, ts0 1, some 0, some 0, some 0, some 0, some 0⟩)

/-- A duplicated `(timestamp, zone)` entry. -/
def dupRows : List RawObservation :=
  [⟨some 1, 1, ts0 0, some 0, some 0, some 0, some 0, some 0⟩,
   ⟨some 2, 1, ts0 0, some 1, some 1, some 1, some 1, some 1⟩]

/-- A complete grid whose two timestamps are two hours apart. -/
def gapRows : List RawObservation := gridRows [0, 2]


theorem dropStep_eq (cols : WideTable) : dropStep cols = cols := rfl

theorem natStrAux_getLast? (fuel n : Nat) :
    (natStrAux (fuel + 1) n).getLast? = some (digitChar (n % 10)) := by
  rw [natStrAux]
  by_cases h : n < 10
  · simp [h, Nat.mod_eq_of_lt h]
  · simp [h, List.getLast?_concat]

theorem natStrChars_getLast? (n : Nat) :
    (natStrChars n).getLast? = some (digitChar (n % 10)) :=
  natStrAux_getLast? n n

theorem natStrChars_ne_nil (n : Nat) : natStrChars n ≠ [] := by
  intro h
  have := natStrChars_getLast? n
  rw [h] at this
  simp [List.getLast?] at this

theorem digitChar_ne_underscore (d : Nat) (hd : d < 10) : digitChar d ≠ '_' := by
  interval_cases d <;> decide

theorem getLast?_field_digit (f : List Char) (z : Nat) :
    (f ++ '_' :: natStrChars z).getLast? = some (digitChar (z % 10)) := by
  have h : ('_' :: natStrChars z) ≠ [] := by simp
  rw [List.getLast?_append_of_ne_nil f h]
  rw [show ('_' :: natStrChars z) = ['_'] ++ natStrChars z from rfl]
  rw [List.getLast?_append_of_ne_nil _ (natStrChars_ne_nil z)]
  exact natStrChars_getLast? z

theorem stripT_hier_some (f : String) (z : Nat) :
    stripT (joinItem (.hier f (some z))) = f.data ++ '_' :: natStrChars z := by
  rw [joinItem, stripT, pyStr]
  rw [if_neg]
  rw [getLast?_field_digit]
  intro h
  exact digitChar_ne_underscore (z % 10) (Nat.mod_lt z (by omega)) (Option.some.inj h)

theorem stripT_hier_none (f : String) :
    stripT (joinItem (.hier f none)) = f.data := by
  rw [joinItem, stripT, pyStr]
  rw [show f.data ++ '_' :: ([] : List Char) = f.data ++ ['_'] from rfl]
  rw [List.getLast?_concat]
  simp [List.dropLast_concat]


theorem rollStage_of_le (N : Int) (cols : WideTable) (hN : ¬ 1 < N) :
    rollStage N cols = .ok (cols, ["No rolling means computed"]) := by
  rw [rollStage, if_neg hN]

theorem rollStage_of_lt (N : Int) (cols : WideTable) (hN : 1 < N) :
    rollStage N cols =
      (rollingBlock N.toNat cols).map fun rm => (cols ++ rm, [rollLogMsg N.toNat]) := by
  rw [rollStage, if_pos hN]

theorem preProcess_ok_parts {rows : List RawObservation} {N : Int} {k : Bool}
    {t : WideTable} {logs : List String} (h : preProcess rows N k = .ok (t, logs)) :
    (indexKeys rows).Nodup ∧
      ∃ cols2 rlog, rollStage N (dropStep (cols0 rows k)) = .ok (cols2, rlog) ∧
        t = (cols2 ++ calendarCols (rowTs rows)).filter (fun c => c.1.1 != "TIMESTAMP") ∧
        logs = [idLog k, "unstacked"] ++ rlog := by
  by_cases hnd : (indexKeys rows).Nodup
  · refine ⟨hnd, ?_⟩
    rw [preProcess, if_pos hnd] at h
    rcases hr : rollStage N (dropStep (cols0 rows k)) with e | p
    · rw [hr] at h
      cases h
    · obtain ⟨cols2, rlog⟩ := p
      rw [hr] at h
      injection h with h'
      obtain ⟨h1, h2⟩ := Prod.mk.injEq .. ▸ h'
      exact ⟨cols2, rlog, rfl, h1.symm, h2.symm⟩
  · rw [preProcess, if_neg hnd] at h
    cases h

theorem mem_rowTs {rows : List RawObservation} {r : RawObservation} (h : r ∈ rows) :
    r.timestamp ∈ rowTs rows := by
  rw [rowTs, (List.perm_insertionSort tsLe _).mem_iff, List.mem_dedup]
  exact List.mem_map_of_mem _ h

theorem mem_zonesOf {rows : List RawObservation} {r : RawObservation} (h : r ∈ rows) :
    r.zoneId ∈ zonesOf rows := by
  rw [zonesOf, (List.perm_insertionSort _ _).mem_iff, List.mem_dedup]
  exact List.mem_map_of_mem _ h

theorem rowTs_nodup (rows : List RawObservation) : (rowTs rows).Nodup :=
  ((List.perm_insertionSort tsLe _).nodup_iff).mpr (List.nodup_dedup _)

theorem rowTs_sorted (rows : List RawObservation) : List.Sorted tsLe (rowTs rows) :=
  List.sorted_insertionSort tsLe _

theorem rowTs_length (rows : List RawObservation) :
    (rowTs rows).length = ((rows.map fun r => r.timestamp).dedup).length :=
  (List.perm_insertionSort tsLe _).length_eq

theorem mem_cols0 (rows : List RawObservation) (k : Bool) (f : String) (z : Nat)
    (hf : f ∈ fieldsOf k) (hz : z ∈ zonesOf rows) :
    ((f, some z), pivotVals rows f z) ∈ cols0 rows k := by
  rw [cols0]
  exact List.mem_flatMap.mpr ⟨f, hf, List.mem_map_of_mem _ hz⟩

theorem cols0_key_det {rows : List RawObservation} {k : Bool} {c : Column}
    (hc : c ∈ cols0 rows k) : ∃ f z, c = ((f, some z), pivotVals rows f z) := by
  rw [cols0] at hc
  obtain ⟨f, hf, hc⟩ := List.mem_flatMap.mp hc
  obtain ⟨z, hz, rfl⟩ := List.mem_map.mp hc
  exact ⟨f, z, rfl⟩

theorem find?_key_unique {l : WideTable} {k : ColKey} {v : List (Option ℚ)}
    (hmem : (k, v) ∈ l) (hdet : ∀ c ∈ l, c.1 = k → c.2 = v) :
    l.find? (fun c => c.1 == k) = some (k, v) := by
  induction l with
  | nil => cases hmem
  | cons a tl ih =>
    by_cases ha : a.1 = k
    · have hv := hdet a (List.mem_cons_self a tl) ha
      have : a = (k, v) := Prod.ext ha hv
      rw [List.find?_cons_of_pos _ (by simp [ha])]
      rw [this]
    · rw [List.find?_cons_of_neg _ (by simp [ha])]
      refine ih ?_ fun c hc => hdet c (List.mem_cons_of_mem _ hc)
      rcases List.mem_cons.mp hmem with h | h
      · exact absurd (congrArg Prod.fst h.symm) ha
      · exact h

theorem getColVals_cols0 (rows : List RawObservation) (k : Bool) (f : String) (z : Nat)
    (hf : f ∈ fieldsOf k) (hz : z ∈ zonesOf rows) :
    getColVals (dropStep (cols0 rows k)) (f, some z) = .ok (pivotVals rows f z) := by
  rw [dropStep_eq, getColVals, find?_key_unique (mem_cols0 rows k f z hf hz) ?_]
  intro c hc hck
  obtain ⟨f', z', rfl⟩ := cols0_key_det hc
  simp only [Prod.mk.injEq, Option.some.injEq] at hck
  rw [hck.1, hck.2]


theorem fields_mem_of_wind (k : Bool) (f : String) (hf : f ∈ windFields) :
    f ∈ fieldsOf k := by
  cases k <;> fin_cases hf <;> decide

theorem rmColsForZone_eq (rows : List RawObservation) (k : Bool) (N : Nat) (i : Nat)
    (hz : i ∈ zonesOf rows) :
    rmColsForZone N (dropStep (cols0 rows k)) i =
      .ok [((rmName "U10" N, some i), rollingMean N (pivotVals rows "U10" i)),
           ((rmName "U100" N, some i), rollingMean N (pivotVals rows "U100" i)),
           ((rmName "V10" N, some i), rollingMean N (pivotVals rows "V10" i)),
           ((rmName "V100" N, some i), rollingMean N (pivotVals rows "V100" i))] := by
  rw [rmColsForZone]
  rw [getColVals_cols0 rows k "U10" i (fields_mem_of_wind k "U10" (by decide)) hz]
  rw [getColVals_cols0 rows k "U100" i (fields_mem_of_wind k "U100" (by decide)) hz]
  rw [getColVals_cols0 rows k "V10" i (fields_mem_of_wind k "V10" (by decide)) hz]
  rw [getColVals_cols0 rows k "V100" i (fields_mem_of_wind k "V100" (by decide)) hz]
  rfl

theorem rollingBlockAux_eq (rows : List RawObservation) (k : Bool) (N : Nat)
    (zs : List Nat) (hzs : ∀ i ∈ zs, i ∈ zonesOf rows) :
    rollingBlockAux N (dropStep (cols0 rows k)) zs =
      .ok (zs.flatMap fun i =>
        [((rmName "U10" N, some i), rollingMean N (pivotVals rows "U10" i)),
         ((rmName "U100" N, some i), rollingMean N (pivotVals rows "U100" i)),
         ((rmName "V10" N, some i), rollingMean N (pivotVals rows "V10" i)),
         ((rmName "V100" N, some i), rollingMean N (pivotVals rows "V100" i))]) := by
  induction zs with
  | nil => rfl
  | cons i rest ih =>
    rw [rollingBlockAux]
    rw [rmColsForZone_eq rows k N i (hzs i (List.mem_cons_self i rest))]
    rw [ih fun j hj => hzs j (List.mem_cons_of_mem _ hj)]
    rfl

theorem rollingBlock_validGrid (rows : List RawObservation) (k : Bool) (N : Nat)
    (hg : ValidGrid rows) :
    rollingBlock N (dropStep (cols0 rows k)) = .ok (rmBlock rows N) := by
  rw [rollingBlock, rollingBlockAux_eq rows k N windMeasurements fun i hi => hg.2.1 ▸ hi]
  rfl

theorem rmName_ne_timestamp (f : String) (hf : f ∈ windFields) (N : Nat) :
    rmName f N ≠ "TIMESTAMP" := by
  fin_cases hf <;>
  · intro h
    have hd := congrArg String.data h
    rw [rmName, String.data_append, String.data_append] at hd
    simp only [show ("U10" : String).data = ['U', '1', '0'] from rfl,
      show ("V10" : String).data = ['V', '1', '0'] from rfl,
      show ("U100" : String).data = ['U', '1', '0', '0'] from rfl,
      show ("V100" : String).data = ['V', '1', '0', '0'] from rfl,
      show ("_rm" : String).data = ['_', 'r', 'm'] from rfl,
      show ("TIMESTAMP" : String).data = ['T', 'I', 'M', 'E', 'S', 'T', 'A', 'M', 'P'] from rfl,
      List.cons_append, List.nil_append, List.cons.injEq] at hd
    exact absurd hd.1 (by decide)


theorem rollingMean_map_some (N : Nat) (l : List ℚ) (i : Nat) (hi : i < l.length)
    (hN : 0 < N) :
    (rollingMean N (l.map some))[i]? =
      some (some ((((l.take (i + 1)).drop (i + 1 - N)).sum) /
        ((((l.take (i + 1)).drop (i + 1 - N)).length : ℚ)))) := by
  rw [rollingMean, List.getElem?_map, List.length_map]
  rw [List.getElem?_range hi]
  rw [Option.map_some']
  have hslice : (((l.map some).take (i + 1)).drop (i + 1 - N)) =
      (((l.take (i + 1)).drop (i + 1 - N)).map some) := by
    rw [← List.map_take, ← List.map_drop]
  have hflt : ∀ m : List ℚ, (m.map some).filterMap id = m := fun m => by simp
  have hlen : (((l.take (i + 1)).drop (i + 1 - N)).length) ≠ 0 := by
    rw [List.length_drop, List.length_take]
    omega
  simp only [rollingMeanAt, hslice, hflt, if_neg hlen]

theorem lookupFilled_eq_of_nodup {rows : List RawObservation} {r : RawObservation}
    (hnd : (indexKeys rows).Nodup) (hr : r ∈ rows) :
    lookupFilled rows r.timestamp r.zoneId = some (fillObservation r) := by
  rw [lookupFilled]
  induction rows with
  | nil => cases hr
  | cons a tl ih =>
    rw [indexKeys, List.map_cons, List.nodup_cons] at hnd
    rcases List.mem_cons.mp hr with h | h
    · subst h
      rw [List.map_cons, List.find?_cons_of_pos]
      simp [fillObservation]
    · by_cases ha : a.timestamp = r.timestamp ∧ a.zoneId = r.zoneId
      · exfalso
        apply hnd.1
        rw [ha.1, ha.2]
        exact List.mem_map_of_mem _ h
      · rw [List.map_cons, List.find?_cons_of_neg]
        · exact ih (by rw [indexKeys]; exact hnd.2) h
        · simp only [fillObservation, Bool.not_eq_true, Bool.and_eq_true, beq_iff_eq,
            not_and]
          intro h1 h2
          exact absurd ⟨h1, h2⟩ ha

theorem pivotVals_validGrid (rows : List RawObservation) (f : String) (z : Nat)
    (hg : ValidGrid rows) (hz : z ∈ windMeasurements) :
    pivotVals rows f z = ((rowTs rows).map (gridVal rows f z)).map some := by
  rw [pivotVals, List.map_map]
  refine List.map_congr_left fun u hu => ?_
  obtain ⟨v, hv⟩ := Option.isSome_iff_exists.mp (hg.2.2 u hu z hz)
  simp [Function.comp, gridVal, hv]

theorem dayOfYear_leap : dayOfYear 2024 3 1 = 61 ∧ dayOfYear 2023 3 1 = 60 := by
  constructor <;> decide


theorem stripT_length_le (l : List Char) : (stripT l).length ≤ l.length := by
  rw [stripT]
  split
  · rw [List.length_dropLast]
    omega
  · exact le_refl _

theorem joinItem_flat_length_le (s : List Char) : (joinItem (.flat s)).length ≤ 3 := by
  rw [joinItem]
  have h1 : (s.take 1).length ≤ 1 := by rw [List.length_take]; omega
  have h2 : ((s.drop 1).take 1).length ≤ 1 := by rw [List.length_take]; omega
  simp only [List.length_append, List.length_cons]
  omega

/-- C10: for every input and every `rollingWindow` value at most 1 (including 0
and negatives) `preProcess` returns exactly the same result as with
`rollingWindow = 1`: no rolling-mean columns are added and the rest of the
output is unaffected by the value. -/
theorem preProcess_nroll_le_one (rows : List RawObservation) (N : Int) (k : Bool)
    (hN : N ≤ 1) : preProcess rows N k = preProcess rows 1 k := by
  rw [preProcess, preProcess]
  rw [rollStage_of_le N _ (by omega), rollStage_of_le 1 _ (by omega)]

theorem preProcess_nroll_le_one_w :
    ((-3 : Int) ≤ 1 ∧ preProcess (gridRows [0]) (-3) false = preProcess (gridRows [0]) 1 false) ∧
    ((0 : Int) ≤ 1 ∧ preProcess (gridRows [0]) 0 true = preProcess (gridRows [0]) 1 true) :=
  ⟨⟨by decide, preProcess_nroll_le_one (gridRows [0]) (-3) false (by decide)⟩,
   ⟨by decide, preProcess_nroll_le_one (gridRows [0]) 0 true (by decide)⟩⟩

/-- C4 (amended): a duplicated `(timestamp, zoneId)` index entry makes
`preProcess` fail with the reshape error and no partial output; a timestamp
that is merely missing one of the expected zones does not fail (see the
counterexample: the missing cells come out as NaN). -/
theorem preProcess_duplicate_error (rows : List RawObservation) (N : Int) (k : Bool)
    (hdup : ¬ (indexKeys rows).Nodup) :
    preProcess rows N k = .error "Index contains duplicate entries, cannot reshape" := by
  rw [preProcess, if_neg hdup]

theorem preProcess_duplicate_error_w :
    ¬ (indexKeys dupRows).Nodup ∧
    preProcess dupRows 3 false = .error "Index contains duplicate entries, cannot reshape" :=
  ⟨by decide, preProcess_duplicate_error dupRows 3 false (by decide)⟩

/-- C4 (counterexample): an input whose second timestamp has zones 1..9 only —
missing expected zone 10 — does not make `preProcess` fail; the run succeeds
and the `(U10, 10)` column holds NaN at the second row. -/
theorem preProcess_missing_zone_cex :
    (preProcess missRows 3 false).isOk = true ∧
    ((("U10", some 10) : ColKey), pivotVals missRows "U10" 10) ∈ theTable missRows 3 false ∧
    (pivotVals missRows "U10" 10)[1]? = some none := by
  decide


/-- C5 (amended): on a structurally valid input `preProcess` succeeds whatever
the timestamp spacing is, and its diagnostics are exactly the fixed progress
messages — no warning about non-hourly deltas is emitted (the source's delta
assertion and prints are commented out). -/
theorem preProcess_no_delta_warning (rows : List RawObservation) (N : Int) (k : Bool)
    (hg : ValidGrid rows) :
    (preProcess rows N k).isOk = true ∧
    ∀ t logs, preProcess rows N k = .ok (t, logs) →
      logs = [idLog k, "unstacked"] ++
        (if 1 < N then [rollLogMsg N.toNat] else ["No rolling means computed"]) := by
  have hnd := hg.1
  have hrs : rollStage N (dropStep (cols0 rows k)) =
      .ok (if 1 < N then (dropStep (cols0 rows k) ++ rmBlock rows N.toNat, [rollLogMsg N.toNat])
           else (dropStep (cols0 rows k), ["No rolling means computed"])) := by
    by_cases hN : 1 < N
    · rw [if_pos hN, rollStage_of_lt N _ hN, rollingBlock_validGrid rows k N.toNat hg]
      rfl
    · rw [if_neg hN, rollStage_of_le N _ hN]
  constructor
  · rw [preProcess, if_pos hnd, hrs]
    by_cases hN : 1 < N
    · rw [if_pos hN]
      rfl
    · rw [if_neg hN]
      rfl
  · intro t logs h
    obtain ⟨-, cols2, rlog, hr, -, hl⟩ := preProcess_ok_parts h
    rw [hrs] at hr
    by_cases hN : 1 < N
    · rw [if_pos hN] at hr
      injection hr with hr'
      obtain ⟨h1, h2⟩ := Prod.mk.injEq .. ▸ hr'
      rw [if_pos hN, hl, ← h2]
    · rw [if_neg hN] at hr
      injection hr with hr'
      obtain ⟨h1, h2⟩ := Prod.mk.injEq .. ▸ hr'
      rw [if_neg hN, hl, ← h2]

theorem preProcess_no_delta_warning_w :
    ValidGrid gapRows ∧ (preProcess gapRows 3 false).isOk = true :=
  ⟨by decide, (preProcess_no_delta_warning gapRows 3 false (by decide)).1⟩

/-- C5 (counterexample): on a valid input whose two timestamps are two hours
apart, `preProcess` succeeds and its diagnostics are only the three fixed
progress messages — no warning diagnostic about the non-hourly delta. -/
theorem preProcess_gap_no_warning_cex :
    (ts0 2).toMinutes - (ts0 0).toMinutes = 120 ∧
    (preProcess gapRows 3 false).toOption.map Prod.snd =
      some ["ID column dropped", "unstacked", "Computing rolling means over 3 measurements"] := by
  decide


/-- C3 (counterexample): flattening is not idempotent.  For the single
hierarchical column `(U10, 1)` the first flatten gives `U10_1` but a second
application — which indexes the flat name's characters — gives `U_1`; likewise
flattening an already-flat name does not leave it unchanged. -/
theorem flatten_idempotent_cex :
    flattenAll ((flattenAll [PdCol.hier "U10" (some 1)]).map PdCol.flat) ≠
      flattenAll [PdCol.hier "U10" (some 1)] ∧
    flattenAll [PdCol.flat ("U10_1".data)] ≠ [("U10_1".data)] ∧
    flattenAll [PdCol.flat ("U10_1".data)] = [("U_1".data)] := by
  decide

/-- C3 (amended): the column-flattening step is not idempotent.  Applied to an
already-flat name it rebuilds the name from its first two characters (then
strips a trailing underscore), so re-flattening any flattened hierarchical
column whose field name has at least two characters changes it:
`flatten(flatten(table)) ≠ flatten(table)`. -/
theorem flatten_not_idempotent (f : String) (z : Nat) (hf : 2 ≤ f.length) :
    flattenAll ((flattenAll [PdCol.hier f (some z)]).map PdCol.flat) ≠
      flattenAll [PdCol.hier f (some z)] := by
  intro h
  have hname : flattenAll [PdCol.hier f (some z)] = [f.data ++ '_' :: natStrChars z] := by
    rw [flattenAll]
    simp only [List.map_cons, List.map_nil]
    rw [stripT_hier_some]
  rw [hname] at h
  have h1 : stripT (joinItem (.flat (f.data ++ '_' :: natStrChars z))) =
      f.data ++ '_' :: natStrChars z := by
    have := h
    rw [flattenAll] at this
    simpa using this
  have hlen := congrArg List.length h1
  have hle3 : (stripT (joinItem (.flat (f.data ++ '_' :: natStrChars z)))).length ≤ 3 :=
    le_trans (stripT_length_le _) (joinItem_flat_length_le _)
  have hfd : f.data.length = f.length := rfl
  have hz1 : 0 < (natStrChars z).length := List.length_pos.mpr (natStrChars_ne_nil z)
  rw [h1] at hle3
  simp only [List.length_append, List.length_cons] at hle3
  omega

theorem flatten_not_idempotent_w :
    2 ≤ ("V100" : String).length ∧
    flattenAll ((flattenAll [PdCol.hier "V100" (some 2)]).map PdCol.flat) ≠
      flattenAll [PdCol.hier "V100" (some 2)] :=
  ⟨by decide, flatten_not_idempotent "V100" 2 (by decide)⟩

/-- C8: the rename of the training feather cell maps a hierarchical key
`(field, some zone)` to `field ++ "_" ++ str(zone)` (the trailing-underscore
strip never fires there because zone digits end the name), maps a key with an
empty zone level to the bare field name (the strip removes the trailing
underscore), and emits all TARGETVAR columns before all predictor columns. -/
theorem flatten_key_rule :
    (∀ (f : String) (z : Nat),
        stripT (joinItem (.hier f (some z))) = f.data ++ '_' :: natStrChars z ∧
        joinItem (.hier f (some z)) = f.data ++ '_' :: natStrChars z) ∧
    (∀ f : String, stripT (joinItem (.hier f none)) = f.data) ∧
    (∀ cols : List ColKey,
        flattenTraining cols =
          ((cols.filter fun kk => kk.1 == "TARGETVAR").map fun kk =>
            joinItem (.hier kk.1 kk.2)) ++
          ((cols.filter fun kk => kk.1 != "TARGETVAR").map fun kk =>
            stripT (joinItem (.hier kk.1 kk.2)))) := by
  refine ⟨fun f z => ⟨stripT_hier_some f z, rfl⟩, stripT_hier_none, fun cols => ?_⟩
  rw [flattenTraining]
  simp [List.map_map]


theorem rollStage_validGrid (rows : List RawObservation) (k : Bool) (N : Int)
    (hg : ValidGrid rows) :
    rollStage N (dropStep (cols0 rows k)) =
      .ok (dropStep (cols0 rows k) ++ (if 1 < N then rmBlock rows N.toNat else []),
        if 1 < N then [rollLogMsg N.toNat] else ["No rolling means computed"]) := by
  by_cases hN : 1 < N
  · rw [if_pos hN, if_pos hN, rollStage_of_lt N _ hN, rollingBlock_validGrid rows k N.toNat hg]
    rfl
  · rw [if_neg hN, if_neg hN, rollStage_of_le N _ hN, List.append_nil]

theorem rollStage_ok_prefix {N : Int} {cols cols2 : WideTable} {rlog : List String}
    (hr : rollStage N cols = .ok (cols2, rlog)) : ∃ tail, cols2 = cols ++ tail := by
  rw [rollStage] at hr
  split at hr
  · rcases hb : rollingBlock N.toNat cols with e | rm
    · rw [hb] at hr
      cases hr
    · rw [hb] at hr
      injection hr with hr'
      exact ⟨rm, (congrArg Prod.fst hr').symm⟩
  · injection hr with hr'
    obtain ⟨h1, -⟩ := Prod.mk.injEq .. ▸ hr'
    exact ⟨[], by rw [← h1, List.append_nil]⟩

theorem mem_t_of_mem_base {rows : List RawObservation} {N : Int} {k : Bool}
    {t : WideTable} {logs : List String} (h : preProcess rows N k = .ok (t, logs))
    {c : Column} (hc : c ∈ dropStep (cols0 rows k))
    (hne : (c.1.1 != "TIMESTAMP") = true) : c ∈ t := by
  obtain ⟨-, cols2, rlog, hr, ht, -⟩ := preProcess_ok_parts h
  obtain ⟨tail, htail⟩ := rollStage_ok_prefix hr
  rw [ht, htail]
  exact List.mem_filter.mpr ⟨List.mem_append_left _ (List.mem_append_left _ hc), hne⟩

theorem mem_t_of_mem_cal {rows : List RawObservation} {N : Int} {k : Bool}
    {t : WideTable} {logs : List String} (h : preProcess rows N k = .ok (t, logs))
    {c : Column} (hc : c ∈ calendarCols (rowTs rows))
    (hne : (c.1.1 != "TIMESTAMP") = true) : c ∈ t := by
  obtain ⟨-, cols2, rlog, hr, ht, -⟩ := preProcess_ok_parts h
  rw [ht]
  exact List.mem_filter.mpr ⟨List.mem_append_right _ hc, hne⟩

theorem mem_t_of_mem_rm {rows : List RawObservation} {N : Int} {k : Bool}
    {t : WideTable} {logs : List String} (hg : ValidGrid rows) (hN : 1 < N)
    (h : preProcess rows N k = .ok (t, logs)) {c : Column}
    (hc : c ∈ rmBlock rows N.toNat) (hne : (c.1.1 != "TIMESTAMP") = true) : c ∈ t := by
  obtain ⟨-, cols2, rlog, hr, ht, -⟩ := preProcess_ok_parts h
  rw [rollStage_validGrid rows k N hg] at hr
  injection hr with hr'
  obtain ⟨hc2, -⟩ := Prod.mk.injEq .. ▸ hr'
  rw [ht, ← hc2, if_pos hN]
  exact List.mem_filter.mpr ⟨List.mem_append_left _ (List.mem_append_right _ hc), hne⟩

theorem rollingMean_length (N : Nat) (l : List (Option ℚ)) :
    (rollingMean N l).length = l.length := by
  rw [rollingMean, List.length_map, List.length_range]

theorem mem_rmBlock (rows : List RawObservation) (N : Nat) (f : String) (z : Nat)
    (hf : f ∈ windFields) (hz : z ∈ windMeasurements) :
    ((rmName f N, some z), rollingMean N (pivotVals rows f z)) ∈ rmBlock rows N := by
  rw [rmBlock]
  refine List.mem_flatMap.mpr ⟨z, hz, ?_⟩
  fin_cases hf <;> simp


/-- C6: a successful run on a structurally valid input (every distinct
timestamp has observations for all 10 zones) returns exactly one row per
distinct input timestamp — every output column has that length — and the rows
are ordered by ascending timestamp: the row axis is the sorted duplicate-free
timestamp list, and e.g. the HOUR column lists the hours in that order. -/
theorem preProcess_row_count_sorted (rows : List RawObservation) (N : Int) (k : Bool)
    (t : WideTable) (logs : List String) (hg : ValidGrid rows)
    (h : preProcess rows N k = .ok (t, logs)) :
    (∀ c ∈ t, c.2.length = ((rows.map fun r => r.timestamp).dedup).length) ∧
    List.Sorted tsLe (rowTs rows) ∧ (rowTs rows).Nodup ∧
    ((("HOUR", none) : ColKey), (rowTs rows).map fun u => some ((u.hour : ℚ))) ∈ t := by
  refine ⟨?_, rowTs_sorted rows, rowTs_nodup rows, ?_⟩
  · intro c hc
    obtain ⟨-, cols2, rlog, hr, ht, -⟩ := preProcess_ok_parts h
    rw [rollStage_validGrid rows k N hg] at hr
    injection hr with hr'
    obtain ⟨hc2, -⟩ := Prod.mk.injEq .. ▸ hr'
    rw [ht, ← hc2] at hc
    have hc' := (List.mem_filter.mp hc).1
    rw [← rowTs_length rows]
    rcases List.mem_append.mp hc' with hmain | hcal
    · rcases List.mem_append.mp hmain with hbase | hrm
      · rw [dropStep_eq] at hbase
        obtain ⟨f, z, rfl⟩ := cols0_key_det hbase
        rw [pivotVals, List.length_map]
      · by_cases hN : 1 < N
      
        · rw [if_pos hN, rmBlock] at hrm
          obtain ⟨z, hz, hin⟩ := List.mem_flatMap.mp hrm
          simp only [List.mem_cons, List.not_mem_nil, or_false] at hin
          rcases hin with rfl | rfl | rfl | rfl <;>
            rw [rollingMean_length, pivotVals, List.length_map]
        · rw [if_neg hN] at hrm
          cases hrm
    · rw [calendarCols] at hcal
      simp only [List.mem_cons, List.not_mem_nil, or_false] at hcal
      rcases hcal with rfl | rfl | rfl <;> rw [List.length_map]
  · have hcm : ((("HOUR", none) : ColKey), (rowTs rows).map fun u => some ((u.hour : ℚ))) ∈
        calendarCols (rowTs rows) := by
      rw [calendarCols]
      simp
    exact mem_t_of_mem_cal h hcm rfl


/-- C7: a successful run returns the calendar columns YEAR, DAYOFYEAR and HOUR
derived from each row's timestamp — DAYOFYEAR 1-based and leap-aware
(2024-03-01 gives 61, 2023-03-01 gives 60), HOUR in 0..23 for valid
timestamps — and no column of the returned table is the raw TIMESTAMP. -/
theorem preProcess_calendar (rows : List RawObservation) (N : Int) (k : Bool)
    (t : WideTable) (logs : List String) (h : preProcess rows N k = .ok (t, logs))
    (hv : ∀ r ∈ rows, (r.timestamp).ValidTime) :
    ((("YEAR", none) : ColKey), (rowTs rows).map fun u => some ((u.year : ℚ))) ∈ t ∧
    ((("DAYOFYEAR", none) : ColKey),
      (rowTs rows).map fun u => some ((dayOfYear u.year u.month u.day : ℚ))) ∈ t ∧
    ((("HOUR", none) : ColKey), (rowTs rows).map fun u => some ((u.hour : ℚ))) ∈ t ∧
    (∀ u ∈ rowTs rows, u.hour < 24) ∧
    (∀ c ∈ t, c.1.1 ≠ "TIMESTAMP") ∧
    dayOfYear 2024 3 1 = 61 ∧ dayOfYear 2023 3 1 = 60 := by
  have hyear : ((("YEAR", none) : ColKey), (rowTs rows).map fun u => some ((u.year : ℚ))) ∈
      calendarCols (rowTs rows) := by
    rw [calendarCols]
    simp
  have hdoy : ((("DAYOFYEAR", none) : ColKey),
      (rowTs rows).map fun u => some ((dayOfYear u.year u.month u.day : ℚ))) ∈
      calendarCols (rowTs rows) := by
    rw [calendarCols]
    simp
  have hhour : ((("HOUR", none) : ColKey), (rowTs rows).map fun u => some ((u.hour : ℚ))) ∈
      calendarCols (rowTs rows) := by
    rw [calendarCols]
    simp
  refine ⟨mem_t_of_mem_cal h hyear rfl, mem_t_of_mem_cal h hdoy rfl,
    mem_t_of_mem_cal h hhour rfl, ?_, ?_, by decide, by decide⟩
  · intro u hu
    rw [rowTs, (List.perm_insertionSort tsLe _).mem_iff, List.mem_dedup] at hu
    obtain ⟨r, hr, rfl⟩ := List.mem_map.mp hu
    exact (hv r hr).2.2.2.2.1
  · intro c hc
    obtain ⟨-, cols2, rlog, hr, ht, -⟩ := preProcess_ok_parts h
    rw [ht] at hc
    have := (List.mem_filter.mp hc).2
    exact bne_iff_ne.mp this

/-- C9: missing values are zero-filled before the ID column is dropped or kept,
and the fill is not restricted to the measurement fields: with keepID = true an
input row whose ID is missing appears in the output ID column of its zone with
value 0, at the row of its timestamp. -/
theorem preProcess_id_filled (rows : List RawObservation) (N : Int)
    (t : WideTable) (logs : List String) (r : RawObservation)
    (h : preProcess rows N true = .ok (t, logs)) (hr : r ∈ rows) (hid : r.id = none) :
    (("ID", some r.zoneId), pivotVals rows "ID" r.zoneId) ∈ t ∧
    (pivotVals rows "ID" r.zoneId)[(rowTs rows).indexOf r.timestamp]? = some (some 0) := by
  have hnd := (preProcess_ok_parts h).1
  constructor
  · have hbase : (("ID", some r.zoneId), pivotVals rows "ID" r.zoneId) ∈
        dropStep (cols0 rows true) := by
      rw [dropStep_eq]
      exact mem_cols0 rows true "ID" r.zoneId (by decide) (mem_zonesOf hr)
    exact mem_t_of_mem_base h hbase rfl
  · have hts : r.timestamp ∈ rowTs rows := mem_rowTs hr
    have hidx : (rowTs rows).indexOf r.timestamp < (rowTs rows).length :=
      List.indexOf_lt_length.mpr hts
    rw [pivotVals, List.getElem?_map]
    have hget : (rowTs rows)[(rowTs rows).indexOf r.timestamp]? = some r.timestamp := by
      rw [List.getElem?_eq_getElem hidx, List.getElem_indexOf hidx]
    rw [hget, Option.map_some', lookupFilled_eq_of_nodup hnd hr, Option.map_some']
    have hfv : fieldValue "ID" (fillObservation r) = r.id.getD 0 := rfl
    rw [hfv, hid]
    rfl


/-- C1: for a structurally valid input and any rollingWindow N > 1, for each
wind quantity and each zone 1..10 the output contains the column named
`{quantity}_rm{N}` for that zone, and its value at row index i is the
arithmetic mean of the raw values of that quantity/zone over the trailing
window of rows `max(0, i-N+1) .. i` (at least one observation at the start of
the series). -/
theorem preProcess_rolling_mean (rows : List RawObservation) (N : Int) (k : Bool)
    (t : WideTable) (logs : List String) (hg : ValidGrid rows) (hN : 1 < N)
    (h : preProcess rows N k = .ok (t, logs)) (f : String) (hf : f ∈ windFields)
    (z : Nat) (hz : z ∈ windMeasurements) (i : Nat) (hi : i < (rowTs rows).length) :
    ((rmName f N.toNat, some z), rollingMean N.toNat (pivotVals rows f z)) ∈ t ∧
    (rollingMean N.toNat (pivotVals rows f z))[i]? =
      some (some ((((((rowTs rows).map (gridVal rows f z)).take (i + 1)).drop
          (i + 1 - N.toNat)).sum) /
        ((((((rowTs rows).map (gridVal rows f z)).take (i + 1)).drop
          (i + 1 - N.toNat)).length : ℚ)))) := by
  constructor
  · have hrm := mem_rmBlock rows N.toNat f z hf hz
    have hne : (rmName f N.toNat != "TIMESTAMP") = true :=
      bne_iff_ne.mpr (rmName_ne_timestamp f hf N.toNat)
    exact mem_t_of_mem_rm hg hN h hrm hne
  · rw [pivotVals_validGrid rows f z hg hz]
    have hlen : i < ((rowTs rows).map (gridVal rows f z)).length := by
      rw [List.length_map]
      exact hi
    have hNpos : 0 < N.toNat := by omega
    exact rollingMean_map_some N.toNat ((rowTs rows).map (gridVal rows f z)) i hlen hNpos

/-- C2: adding the rolling-mean columns neither removes nor modifies the raw
wind columns: for every wind quantity and zone, a successful run with N > 1
still contains the raw pivoted column with its original values, alongside the
new `{quantity}_rm{N}` column, and the raw column equals the one a run with
rollingWindow = 1 produces. -/
theorem preProcess_raw_wind_retained (rows : List RawObservation) (N : Int) (k : Bool)
    (t : WideTable) (logs : List String) (hg : ValidGrid rows) (hN : 1 < N)
    (h : preProcess rows N k = .ok (t, logs)) (f : String) (hf : f ∈ windFields)
    (z : Nat) (hz : z ∈ windMeasurements) :
    ((f, some z), pivotVals rows f z) ∈ t ∧
    ((rmName f N.toNat, some z), rollingMean N.toNat (pivotVals rows f z)) ∈ t ∧
    ∀ t1 logs1, preProcess rows 1 k = .ok (t1, logs1) →
      ((f, some z), pivotVals rows f z) ∈ t1 := by
  have hne : (f != "TIMESTAMP") = true := by
    fin_cases hf <;> decide
  have hbase : ((f, some z), pivotVals rows f z) ∈ dropStep (cols0 rows k) := by
    rw [dropStep_eq]
    exact mem_cols0 rows k f z (fields_mem_of_wind k f hf) (hg.2.1 ▸ hz)
  refine ⟨mem_t_of_mem_base h hbase hne, ?_, fun t1 logs1 h1 => mem_t_of_mem_base h1 hbase hne⟩
  have hrm := mem_rmBlock rows N.toNat f z hf hz
  exact mem_t_of_mem_rm hg hN h hrm (bne_iff_ne.mpr (rmName_ne_timestamp f hf N.toNat))


theorem preProcess_rolling_mean_w :
    ValidGrid (gridRows [0, 1]) ∧ (1 : Int) < 2 ∧
    "U10" ∈ windFields ∧ 3 ∈ windMeasurements ∧ 1 < (rowTs (gridRows [0, 1])).length ∧
    (((rmName "U10" (Int.toNat 2), some 3),
        rollingMean (Int.toNat 2) (pivotVals (gridRows [0, 1]) "U10" 3)) ∈
      theTable (gridRows [0, 1]) 2 false ∧
    (rollingMean (Int.toNat 2) (pivotVals (gridRows [0, 1]) "U10" 3))[1]? =
      some (some ((((((rowTs (gridRows [0, 1])).map (gridVal (gridRows [0, 1]) "U10" 3)).take
            (1 + 1)).drop (1 + 1 - Int.toNat 2)).sum) /
        ((((((rowTs (gridRows [0, 1])).map (gridVal (gridRows [0, 1]) "U10" 3)).take
            (1 + 1)).drop (1 + 1 - Int.toNat 2)).length : ℚ))))) :=
  ⟨by decide, by decide, by decide, by decide, by decide,
    preProcess_rolling_mean (gridRows [0, 1]) 2 false (theTable (gridRows [0, 1]) 2 false)
      (theLogs (gridRows [0, 1]) 2 false) (by decide) (by decide) rfl "U10" (by decide) 3
      (by decide) 1 (by decide)⟩

theorem preProcess_raw_wind_retained_w :
    ValidGrid (gridRows [0, 1]) ∧ (1 : Int) < 3 ∧
    "V100" ∈ windFields ∧ 10 ∈ windMeasurements ∧
    ((("V100", some 10) : ColKey), pivotVals (gridRows [0, 1]) "V100" 10) ∈
      theTable (gridRows [0, 1]) 3 true ∧
    ((rmName "V100" (Int.toNat 3), some 10),
        rollingMean (Int.toNat 3) (pivotVals (gridRows [0, 1]) "V100" 10)) ∈
      theTable (gridRows [0, 1]) 3 true :=
  have happ := preProcess_raw_wind_retained (gridRows [0, 1]) 3 true
    (theTable (gridRows [0, 1]) 3 true) (theLogs (gridRows [0, 1]) 3 true)
    (by decide) (by decide) rfl "V100" (by decide) 10 (by decide)
  ⟨by decide, by decide, by decide, by decide, happ.1, happ.2.1⟩

theorem preProcess_row_count_sorted_w :
    ValidGrid (gridRows [0, 1, 2]) ∧
    List.Sorted tsLe (rowTs (gridRows [0, 1, 2])) ∧ (rowTs (gridRows [0, 1, 2])).Nodup ∧
    ((("HOUR", none) : ColKey), (rowTs (gridRows [0, 1, 2])).map fun u => some ((u.hour : ℚ))) ∈
      theTable (gridRows [0, 1, 2]) 3 false :=
  have happ := preProcess_row_count_sorted (gridRows [0, 1, 2]) 3 false
    (theTable (gridRows [0, 1, 2]) 3 false) (theLogs (gridRows [0, 1, 2]) 3 false)
    (by decide) rfl
  ⟨by decide, happ.2.1, happ.2.2.1, happ.2.2.2⟩

theorem preProcess_calendar_w :
    preProcess (gridRows [0, 1]) 3 false =
      .ok (theTable (gridRows [0, 1]) 3 false, theLogs (gridRows [0, 1]) 3 false) ∧
    ((("YEAR", none) : ColKey),
        (rowTs (gridRows [0, 1])).map fun u => some ((u.year : ℚ))) ∈
      theTable (gridRows [0, 1]) 3 false ∧
    ((("DAYOFYEAR", none) : ColKey),
        (rowTs (gridRows [0, 1])).map fun u => some ((dayOfYear u.year u.month u.day : ℚ))) ∈
      theTable (gridRows [0, 1]) 3 false ∧
    ((("HOUR", none) : ColKey),
        (rowTs (gridRows [0, 1])).map fun u => some ((u.hour : ℚ))) ∈
      theTable (gridRows [0, 1]) 3 false ∧
    dayOfYear 2024 3 1 = 61 ∧ dayOfYear 2023 3 1 = 60 :=
  have happ := preProcess_calendar (gridRows [0, 1]) 3 false
    (theTable (gridRows [0, 1]) 3 false) (theLogs (gridRows [0, 1]) 3 false) rfl (by decide)
  ⟨rfl, happ.1, happ.2.1, happ.2.2.1, happ.2.2.2.2.2.1, happ.2.2.2.2.2.2⟩

theorem preProcess_id_filled_w :
    (⟨none, 1, ts0 0, some 0, some 0, some 0, some 0, some 0⟩ : RawObservation) ∈ idRows ∧
    ((("ID", some 1) : ColKey), pivotVals idRows "ID" 1) ∈ theTable idRows 3 true ∧
    (pivotVals idRows "ID" 1)[(rowTs idRows).indexOf (ts0 0)]? = some (some 0) :=
  have happ := preProcess_id_filled idRows 3 (theTable idRows 3 true) (theLogs idRows 3 true)
    ⟨none, 1, ts0 0, some 0, some 0, some 0, some 0, some 0⟩ rfl (by decide) rfl
  ⟨by decide, happ.1, happ.2⟩

end WindPrep
